import Mathlib

/-!
# quizbot: a shallow embedding of `main.go`

Go strings are represented by the sequence of runes that Go's own decoding of
the string yields (Lean `String`).  Go `int` values are `Int`; the only
arithmetic in the program is `score++`, bounded by `len(questions)`, so no
wrap-around can occur.

Standard output is the list of the strings written to it, in order.
-/

namespace Quiz

/-! ## Data model -/

/-- Go `type Question struct { question string; answer string }`. -/
structure Question where
  question : String
  answer : String
deriving DecidableEq, Repr

/-! ## `strings.ToLower` and `strings.TrimSpace` -/

/-- Go `unicode.IsSpace`: in Latin-1 the runes `\t \n \v \f \r`, space, U+0085
and U+00A0; above Latin-1 the remaining runes of the `White_Space` table. -/
def isSpace (r : Char) : Bool :=
  let n := r.toNat
  if n ≤ 0xFF then
    n == 0x09 || n == 0x0A || n == 0x0B || n == 0x0C || n == 0x0D || n == 0x20
      || n == 0x85 || n == 0xA0
  else
    n == 0x1680 || (0x2000 ≤ n && n ≤ 0x200A) || n == 0x2028 || n == 0x2029
      || n == 0x202F || n == 0x205F || n == 0x3000

/-- Go `unicode.ToLower`: for `r <= MaxASCII` the letters `A`..`Z` are moved
by `'a' - 'A'` and every other rune is returned as is; above ASCII the result is
looked up in the library table `unicode.CaseRanges`, which is the parameter
`caseTable`. -/
def toLowerRune (caseTable : Char → Char) (r : Char) : Char :=
  if r.toNat ≤ 0x7F then
    if 0x41 ≤ r.toNat ∧ r.toNat ≤ 0x5A then Char.ofNat (r.toNat + 0x20) else r
  else caseTable r

/-- Go `strings.ToLower`: every rune mapped by `unicode.ToLower`. -/
def ToLower (caseTable : Char → Char) (s : String) : String :=
  ⟨s.data.map (toLowerRune caseTable)⟩

/-- Go `strings.TrimSpace`: the string without its leading and trailing runes
that satisfy `unicode.IsSpace`. -/
def TrimSpace (s : String) : String :=
  ⟨(s.data.dropWhile isSpace).rdropWhile isSpace⟩

/-! ## `askQuestions` -/

/-- What the `select` of `askQuestions` can observe, plus the failure of the
reader goroutine `getInput`. -/
inductive Event where
  /-- `answer := <-done`: `getInput` delivered a line read from standard input. -/
  | line (text : String)
  /-- `<-timer.C`: the deadline timer fired. -/
  | deadline
  /-- `reader.ReadString` failed in `getInput`, which calls `log.Fatal`. -/
  | readError
deriving DecidableEq, Repr

/-- How a run of `askQuestions` over a finite event sequence ends. -/
inductive Status where
  /-- `return score, nil` after the loop. -/
  | completed
  /-- `return score, fmt.Errorf("Time out")`. -/
  | timedOut
  /-- `log.Fatal` in `getInput` ended the process. -/
  | exited
  /-- The `select` is still blocked: the event sequence ended first. -/
  | waiting
deriving DecidableEq, Repr

/-- State of `askQuestions` at the end of a run: the accumulator `score`, how
the run ended, the prompts written to standard output and the events that were
not consumed. -/
structure Attempt where
  score : Int
  status : Status
  stdout : List String
  rest : List Event
deriving DecidableEq, Repr

/-- The condition of the `if` at line 121:
`strings.TrimSpace(strings.ToLower(answer)) == strings.TrimSpace(strings.ToLower(question.answer))`. -/
def isCorrect (caseTable : Char → Char) (answer expected : String) : Bool :=
  TrimSpace (ToLower caseTable answer) == TrimSpace (ToLower caseTable expected)

/-- `fmt.Printf("%s: ", question.question)`. -/
def promptOf (q : Question) : String :=
  q.question ++ ": "

/-- The `for _, question := range questions` loop of `askQuestions`, from the
current `score` and the output written so far. -/
def askLoop (caseTable : Char → Char) :
    List Question → List Event → Int → List String → Attempt
  | [], evs, score, out => ⟨score, .completed, out, evs⟩
  | q :: qs, evs, score, out =>
    let out1 := out ++ [promptOf q]
    match evs with
    | [] => ⟨score, .waiting, out1, []⟩
    | .deadline :: rest => ⟨score, .timedOut, out1, rest⟩
    | .readError :: rest => ⟨score, .exited, out1, rest⟩
    | .line answer :: rest =>
      askLoop caseTable qs rest
        (if isCorrect caseTable answer q.answer then score + 1 else score) out1

/-- Go `askQuestions(questions, timeLimit)`.  The timer created from
`timeLimit` and the channel fed by `getInput` appear as the event sequence
`events`, in the order in which the `select` statements take them. -/
def askQuestions (caseTable : Char → Char) (questions : List Question)
    (_timeLimit : Int) (events : List Event) : Attempt :=
  askLoop caseTable questions events 0 []

/-- The `(int, error)` pair returned by `askQuestions`, when it returns. -/
def Attempt.returned (a : Attempt) : Option (Int × Option String) :=
  match a.status with
  | .completed => some (a.score, none)
  | .timedOut => some (a.score, some "Time out")
  | .exited => none
  | .waiting => none

/-- Number of positions at which the typed line matches the expected answer. -/
def countCorrect (caseTable : Char → Char) (qs : List Question) (typed : List String) : Nat :=
  (qs.zip typed).countP (fun p => isCorrect caseTable p.2 p.1.answer)

/-! ## `readCSV` -/

/-- The `for _, line := range allQuestions` loop of `readCSV`, with the slice
`questions` built so far.  The pair is Go's `([]Question, error)`; the `nil`
slice is `[]`. -/
def readCSVLoop : List (List String) → List Question → List Question × Option String
  | [], questions => (questions, none)
  | line :: rest, questions =>
    if h : line.length ≠ 2 then
      ([], some "Invalid format in CSV")
    else
      have h2 : line.length = 2 := not_not.mp h
      readCSVLoop rest
        (questions ++ [⟨line.get ⟨0, by omega⟩, line.get ⟨1, by omega⟩⟩])

/-- Go `readCSV(f)`.  The library call `csv.NewReader(f).ReadAll()` is
represented by its result `readAll`: the decoded records or the error. -/
def readCSV (readAll : Except String (List (List String))) : List Question × Option String :=
  match readAll with
  | .error err => ([], some err)
  | .ok allQuestions => readCSVLoop allQuestions []

/-! ## `csv.Reader.ReadAll` -/

/-- A record as the reader of `encoding/csv` parses it from the file: the line
on which it starts and its fields. -/
structure Record where
  line : Nat
  fields : List String
deriving DecidableEq, Repr

/-- The text of the error of `encoding/csv` for `ErrFieldCount`:
`record on line %d: wrong number of fields`. -/
def fieldCountError (line : Nat) : String :=
  "record on line " ++ toString line ++ ": wrong number of fields"

/-- The loop of Go `(*csv.Reader).ReadAll` over the records of the file, with
the field `FieldsPerRecord` of the reader and the records kept so far.  While
`FieldsPerRecord` is 0 a record sets it to its own number of fields; once it is
positive a record with another number of fields ends the loop with the
`ErrFieldCount` error.  `failure` is the error that ends the file instead of
EOF (bad quoting, failed read), if there is one. -/
def csvReadLoop (failure : Option String) :
    Nat → List Record → List (List String) → Except String (List (List String))
  | _, [], records =>
    match failure with
    | some err => .error err
    | none => .ok records
  | fieldsPerRecord, r :: rest, records =>
    if fieldsPerRecord > 0 then
      if r.fields.length ≠ fieldsPerRecord then .error (fieldCountError r.line)
      else csvReadLoop failure fieldsPerRecord rest (records ++ [r.fields])
    else csvReadLoop failure r.fields.length rest (records ++ [r.fields])

/-- `csv.NewReader(f).ReadAll()`: `csv.NewReader` leaves `FieldsPerRecord` at 0. -/
def csvReadAll (input : List Record) (failure : Option String) :
    Except String (List (List String)) :=
  csvReadLoop failure 0 input []

/-! ## Shuffling -/

/-- The closure passed to `rand.Shuffle` in `main`:
`questions[i], questions[j] = questions[j], questions[i]`.  An index out of
range is a run-time failure in Go, here `none`. -/
def swap (questions : List Question) (i j : Nat) : Option (List Question) :=
  if h : i < questions.length ∧ j < questions.length then
    some ((questions.set i (questions.get ⟨j, h.2⟩)).set j (questions.get ⟨i, h.1⟩))
  else none

/-- The loop of Go `rand.Shuffle`: `for ; i > 0; i-- { j := intn(i + 1); swap(i, j) }`.
The outcome of the random source is `draw`: `draw i` is the value in `[0, i]`
returned by the call made at loop index `i`. -/
def shuffleLoop (draw : (i : Nat) → Fin (i + 1)) :
    Nat → List Question → Option (List Question)
  | 0, questions => some questions
  | i + 1, questions =>
    match swap questions (i + 1) (draw (i + 1)).val with
    | none => none
    | some questions1 => shuffleLoop draw i questions1

/-- Go `rand.Shuffle(n, swap)` applied to `questions`; the loop starts at `i := n - 1`. -/
def Shuffle (draw : (i : Nat) → Fin (i + 1)) (n : Nat) (questions : List Question) :
    Option (List Question) :=
  shuffleLoop draw (n - 1) questions

/-- Lines 35-38 of `main`: `if shuffleQuestions { rand.Shuffle(len(questions), ...) }`. -/
def shuffleStep (shuffleQuestions : Bool) (draw : (i : Nat) → Fin (i + 1))
    (questions : List Question) : Option (List Question) :=
  if shuffleQuestions then Shuffle draw questions.length questions else some questions

/-! ## `saveScore` -/

/-- What a path names, as far as `os.OpenFile(_, O_APPEND|O_CREATE|O_WRONLY, 0644)`
is concerned. -/
inductive Node where
  /-- A file that can be opened for appending, with its content. -/
  | file (content : String)
  /-- A path that cannot be opened for writing (a directory, no permission). -/
  | locked
deriving DecidableEq, Repr

/-- The files of the machine: what each path names, `none` when nothing does. -/
abbrev FileSystem := String → Option Node

/-- The file system with `path` naming `node`. -/
def FileSystem.put (fs : FileSystem) (path : String) (node : Node) : FileSystem :=
  fun p => if p = path then some node else fs p

/-- `fmt.Fprintf(f, "Score: %d/%d\n", score, total)`: the text written. -/
def scoreRecord (score total : Int) : String :=
  "Score: " ++ toString score ++ "/" ++ toString total ++ "\n"

/-- Go `saveScore(filename, score, total)`: the file system afterwards, or
`none` when `os.OpenFile` fails and `log.Fatalf` ends the process.  A missing
file is created (`O_CREATE`); an existing one is written at its end
(`O_APPEND`). -/
def saveScore (fs : FileSystem) (filename : String) (score total : Int) : Option FileSystem :=
  match fs filename with
  | some .locked => none
  | some (.file content) => some (fs.put filename (.file (content ++ scoreRecord score total)))
  | none => some (fs.put filename (.file (scoreRecord score total)))

/-! ## The session loop of `main` -/

/-- Standard output (the strings written, in order) and the files. -/
structure World where
  stdout : List String
  files : FileSystem

/-- Input of one iteration of the `for` loop of `main`: the events seen by that
call of `askQuestions`, and what `reader.ReadString` at line 59 hands to `main`
for the retry question (its error is discarded by `answer, _ :=`); `none` when
that read has not returned.  This is the line that reaches the reader of
`main`, not necessarily the line typed at the question: see `retryAnswer`. -/
structure Round where
  events : List Event
  response : Option String
deriving DecidableEq, Repr

/-- How one iteration of the `for` loop of `main` ends. -/
inductive Step where
  /-- The loop body ran to its end: `askQuestions` is called again. -/
  | again
  /-- `return` (after a time-out) or `break`: `main` returns. -/
  | returned
  /-- `log.Fatal` or `log.Fatalf` ended the process. -/
  | exited
  /-- Blocked on input that the script does not hold. -/
  | waiting
deriving DecidableEq, Repr

/-- `fmt.Printf("Your Score: %d/%d\n", score, len(questions))`. -/
def scoreLine (score total : Int) : String :=
  "Your Score: " ++ toString score ++ "/" ++ toString total ++ "\n"

/-- One iteration of the `for` loop of `main` (lines 41-62). -/
def sessionStep (caseTable : Char → Char) (questions : List Question) (timeLimit : Int)
    (outputScore : String) (retry : Bool) (r : Round) (w : World) : World × Step :=
  let a := askQuestions caseTable questions timeLimit r.events
  let w1 : World := ⟨w.stdout ++ a.stdout, w.files⟩
  match a.status with
  | .exited => (w1, .exited)
  | .waiting => (w1, .waiting)
  | .timedOut => (⟨w1.stdout ++ ["Time out\n"], w1.files⟩, .returned)
  | .completed =>
    let w2 : World := ⟨w1.stdout ++ [scoreLine a.score questions.length], w1.files⟩
    let saved : Option World :=
      if outputScore ≠ "" then
        (saveScore w2.files outputScore a.score questions.length).map (fun fs => ⟨w2.stdout, fs⟩)
      else some w2
    match saved with
    | none => (w2, .exited)
    | some w3 =>
      if !retry then (w3, .returned)
      else
        let w4 : World := ⟨w3.stdout ++ ["Do you want to retry? (yes/no)\n"], w3.files⟩
        match r.response with
        | none => (w4, .waiting)
        | some answer =>
          if TrimSpace (ToLower caseTable answer) ≠ "yes" then (w4, .returned)
          else (w4, .again)

/-- A run of `main` from its `for` loop on. -/
structure Session where
  world : World
  /-- Number of calls of `askQuestions`. -/
  attempts : Nat
  ending : Step

/-- The `for` loop of `main` over a script of rounds; `attempts` counts the
calls of `askQuestions` made so far.  When the script is used up the next call
of `askQuestions` sees no event. -/
def sessionLoop (caseTable : Char → Char) (questions : List Question) (timeLimit : Int)
    (outputScore : String) (retry : Bool) : List Round → World → Nat → Session
  | [], w, attempts =>
    let p := sessionStep caseTable questions timeLimit outputScore retry ⟨[], none⟩ w
    ⟨p.1, attempts + 1, if p.2 = .again then .waiting else p.2⟩
  | r :: rs, w, attempts =>
    let p := sessionStep caseTable questions timeLimit outputScore retry r w
    match p.2 with
    | .again => sessionLoop caseTable questions timeLimit outputScore retry rs p.1 (attempts + 1)
    | .returned => ⟨p.1, attempts + 1, .returned⟩
    | .exited => ⟨p.1, attempts + 1, .exited⟩
    | .waiting => ⟨p.1, attempts + 1, .waiting⟩

/-- Three questions. -/
def sampleQuestions : List Question :=
  [⟨"Capital of France?", "Paris"⟩, ⟨"1+1", "2"⟩, ⟨"Largest planet?", " Jupiter"⟩]

/-- A file system holding one score file. -/
def sampleFiles : FileSystem :=
  fun p => if p = "scores.txt" then some (Node.file "Score: 1/2\n") else none

/-- A world with nothing printed and no file. -/
def emptyWorld : World :=
  ⟨[], fun _ => none⟩

/-- A file of three records, the second with three fields. -/
def mixedInput : List Record :=
  [⟨1, ["1+1", "2"]⟩, ⟨2, ["a", "b", "c"]⟩, ⟨3, ["x", "y"]⟩]

/-- A file of two records with three fields each. -/
def threeColumnInput : List Record :=
  [⟨1, ["a", "b", "c"]⟩, ⟨2, ["d", "e", "f"]⟩]

/-! ## Lemmas on normalisation -/

theorem isSpace_letter (n : Nat) (h1 : 0x41 ≤ n) (h2 : n ≤ 0x5A) :
    isSpace (Char.ofNat (n + 0x20)) = false ∧ isSpace (Char.ofNat n) = false := by
  interval_cases n <;> decide

/-- Lower-casing a rune does not change whether it is white space, provided the
case table above ASCII does not. -/
theorem isSpace_toLowerRune (caseTable : Char → Char)
    (hTable : ∀ c : Char, 0x7F < c.toNat → isSpace (caseTable c) = isSpace c) (c : Char) :
    isSpace (toLowerRune caseTable c) = isSpace c := by
  unfold toLowerRune
  split_ifs with h1 h2
  · have h := isSpace_letter c.toNat h2.1 h2.2
    rw [Char.ofNat_toNat] at h
    rw [h.1, h.2]
  · rfl
  · exact hTable c (by omega)

theorem map_dropWhile_comm {α : Type} (f : α → α) (p : α → Bool) (hf : ∀ a, p (f a) = p a)
    (l : List α) : (l.dropWhile p).map f = (l.map f).dropWhile p := by
  induction l with
  | nil => rfl
  | cons a t ih =>
    simp only [List.map_cons, List.dropWhile_cons, hf]
    cases p a with
    | true => simpa using ih
    | false => simp

theorem map_rdropWhile_comm {α : Type} (f : α → α) (p : α → Bool) (hf : ∀ a, p (f a) = p a)
    (l : List α) : (l.rdropWhile p).map f = (l.map f).rdropWhile p := by
  unfold List.rdropWhile
  rw [← List.map_reverse, ← map_dropWhile_comm f p hf, List.map_reverse]

/-- Trimming and lower-casing commute. -/
theorem TrimSpace_ToLower_comm (caseTable : Char → Char)
    (hTable : ∀ c : Char, 0x7F < c.toNat → isSpace (caseTable c) = isSpace c) (s : String) :
    TrimSpace (ToLower caseTable s) = ToLower caseTable (TrimSpace s) := by
  have hf := isSpace_toLowerRune caseTable hTable
  simp only [TrimSpace, ToLower]
  rw [map_rdropWhile_comm _ _ hf, map_dropWhile_comm _ _ hf]

theorem isCorrect_iff (caseTable : Char → Char)
    (hTable : ∀ c : Char, 0x7F < c.toNat → isSpace (caseTable c) = isSpace c)
    (typed expected : String) :
    isCorrect caseTable typed expected = true ↔
      ToLower caseTable (TrimSpace typed) = ToLower caseTable (TrimSpace expected) := by
  unfold isCorrect
  rw [TrimSpace_ToLower_comm caseTable hTable, TrimSpace_ToLower_comm caseTable hTable]
  exact beq_iff_eq

/-! ## Lemmas on `askLoop` -/

theorem askLoop_score_bounds (caseTable : Char → Char) (qs : List Question) :
    ∀ (evs : List Event) (score : Int) (out : List String),
      score ≤ (askLoop caseTable qs evs score out).score ∧
      (askLoop caseTable qs evs score out).score ≤ score + qs.length := by
  induction qs with
  | nil => intro evs score out; simp [askLoop]
  | cons q qs ih =>
    intro evs score out
    cases evs with
    | nil => simp only [askLoop, List.length_cons]; push_cast; omega
    | cons e rest =>
      cases e with
      | deadline => simp only [askLoop, List.length_cons]; push_cast; omega
      | readError => simp only [askLoop, List.length_cons]; push_cast; omega
      | line answer =>
        simp only [askLoop, List.length_cons]
        have h := ih rest (if isCorrect caseTable answer q.answer then score + 1 else score)
          (out ++ [promptOf q])
        push_cast
        split_ifs at h ⊢ <;> omega

/-- The loop after `typed.length ≤ qs.length` delivered lines: it stands before
question number `typed.length`, with the matches counted and those prompts written. -/
theorem askLoop_lines (caseTable : Char → Char) (qs : List Question) :
    ∀ (typed : List String) (rest : List Event) (score : Int) (out : List String),
      typed.length ≤ qs.length →
      askLoop caseTable qs (typed.map Event.line ++ rest) score out =
        askLoop caseTable (qs.drop typed.length) rest
          (score + countCorrect caseTable qs typed)
          (out ++ (qs.take typed.length).map promptOf) := by
  induction qs with
  | nil =>
    intro typed rest score out h
    have : typed = [] := List.length_eq_zero.mp (Nat.le_zero.mp h)
    subst this
    simp [countCorrect]
  | cons q qs ih =>
    intro typed rest score out h
    cases typed with
    | nil => simp [countCorrect]
    | cons t ts =>
      have h1 : ts.length ≤ qs.length := by simpa using h
      simp only [List.map_cons, List.cons_append, askLoop, List.length_cons, List.drop_succ_cons,
        List.take_succ_cons]
      rw [ih ts rest _ _ h1]
      have hc : (countCorrect caseTable (q :: qs) (t :: ts) : Int) =
          (if isCorrect caseTable t q.answer then 1 else 0) + countCorrect caseTable qs ts := by
        simp only [countCorrect, List.zip_cons_cons, List.countP_cons]
        split_ifs
        · simp; omega
        · simp
      rw [hc]
      congr 1
      · split_ifs <;> omega
      · simp

/-! ## Lemmas on `readCSV` -/

theorem readCSVLoop_two_fields (records : List (List String)) :
    ∀ acc : List Question, (∀ r ∈ records, r.length = 2) →
      readCSVLoop records acc =
        (acc ++ records.map (fun r => ⟨r.getD 0 "", r.getD 1 ""⟩), none) := by
  induction records with
  | nil => intro acc _; simp [readCSVLoop]
  | cons r rest ih =>
    intro acc h
    have hr : r.length = 2 := h r (List.mem_cons_self _ _)
    have hrest : ∀ x ∈ rest, x.length = 2 := fun x hx => h x (List.mem_cons_of_mem _ hx)
    obtain ⟨x, y, rfl⟩ := List.length_eq_two.mp hr
    simp [readCSVLoop, ih _ hrest]

theorem readCSVLoop_bad_record (records : List (List String)) :
    ∀ acc : List Question, (∃ r ∈ records, r.length ≠ 2) →
      readCSVLoop records acc = ([], some "Invalid format in CSV") := by
  induction records with
  | nil => intro acc h; obtain ⟨r, hr, _⟩ := h; cases hr
  | cons r rest ih =>
    intro acc h
    by_cases hr : r.length ≠ 2
    · rw [readCSVLoop, dif_pos hr]
    · rw [readCSVLoop, dif_neg hr]
      apply ih
      obtain ⟨x, hx, hx2⟩ := h
      rcases List.mem_cons.mp hx with rfl | hmem
      · exact absurd hx2 hr
      · exact ⟨x, hmem, hx2⟩

/-! ## Lemmas on `csvReadLoop` -/

/-- Records that all have `k` fields pass the field-count check. -/
theorem csvReadLoop_uniform (failure : Option String) (k : Nat) (input : List Record) :
    ∀ (fieldsPerRecord : Nat) (records : List (List String)),
      (fieldsPerRecord = 0 ∨ fieldsPerRecord = k) →
      (∀ r ∈ input, r.fields.length = k) →
      csvReadLoop failure fieldsPerRecord input records =
        match failure with
        | some err => Except.error err
        | none => Except.ok (records ++ input.map Record.fields) := by
  induction input with
  | nil => intro f records _ _; simp [csvReadLoop]
  | cons r rest ih =>
    intro f records hf h
    have hr : r.fields.length = k := h r (List.mem_cons_self _ _)
    have hrest : ∀ x ∈ rest, x.fields.length = k := fun x hx => h x (List.mem_cons_of_mem _ hx)
    rw [csvReadLoop]
    by_cases hpos : f > 0
    · have hfk : f = k := by omega
      rw [if_pos hpos, if_neg (by simp [hr, hfk]), ih f _ (Or.inr hfk) hrest]
      simp
    · rw [if_neg hpos, ih r.fields.length _ (Or.inr hr) hrest]
      simp

/-- The first record whose field count is not the positive `FieldsPerRecord`
ends the loop with the field-count error. -/
theorem csvReadLoop_mismatch (failure : Option String) (k : Nat) (hk : 0 < k)
    (pre : List Record) (r : Record) (post : List Record) :
    ∀ records : List (List String),
      (∀ x ∈ pre, x.fields.length = k) → r.fields.length ≠ k →
      csvReadLoop failure k (pre ++ r :: post) records =
        Except.error (fieldCountError r.line) := by
  induction pre with
  | nil =>
    intro records _ hr
    rw [List.nil_append, csvReadLoop, if_pos hk, if_pos hr]
  | cons x xs ih =>
    intro records h hr
    have hx : x.fields.length = k := h x (List.mem_cons_self _ _)
    have hxs : ∀ y ∈ xs, y.fields.length = k := fun y hy => h y (List.mem_cons_of_mem _ hy)
    rw [List.cons_append, csvReadLoop, if_pos hk, if_neg (by simp [hx])]
    exact ih _ hxs hr

/-- When the loop succeeds it returns the fields of all the records, in order. -/
theorem csvReadLoop_ok (failure : Option String) (input : List Record) :
    ∀ (fieldsPerRecord : Nat) (records out : List (List String)),
      csvReadLoop failure fieldsPerRecord input records = Except.ok out →
      out = records ++ input.map Record.fields := by
  induction input with
  | nil =>
    intro f records out h
    cases failure with
    | none => simp [csvReadLoop] at h; simp [h]
    | some err => simp [csvReadLoop] at h
  | cons r rest ih =>
    intro f records out h
    rw [csvReadLoop] at h
    by_cases hpos : f > 0
    · rw [if_pos hpos] at h
      by_cases hne : r.fields.length ≠ f
      · rw [if_pos hne] at h; cases h
      · rw [if_neg hne] at h
        rw [ih _ _ _ h]; simp
    · rw [if_neg hpos] at h
      rw [ih _ _ _ h]; simp

/-- On no input does `readCSV` return questions together with an error, and a
record without exactly two fields makes it fail. -/
theorem readCSV_fails (input : List Record) (failure : Option String)
    (h : ∃ r ∈ input, r.fields.length ≠ 2) :
    ∃ err, readCSV (csvReadAll input failure) = ([], some err) := by
  cases hres : csvReadAll input failure with
  | error e => exact ⟨e, rfl⟩
  | ok out =>
    have hout := csvReadLoop_ok failure input 0 [] out hres
    simp only [List.nil_append] at hout
    refine ⟨"Invalid format in CSV", ?_⟩
    unfold readCSV
    apply readCSVLoop_bad_record
    obtain ⟨r, hr, hr2⟩ := h
    exact ⟨r.fields, by rw [hout]; exact List.mem_map_of_mem _ hr, hr2⟩

/-! ## Lemmas on shuffling -/

theorem get_cons_set_perm {α : Type} (l : List α) :
    ∀ (k : Nat) (h : k < l.length) (a : α), (l.get ⟨k, h⟩ :: l.set k a).Perm (a :: l) := by
  induction l with
  | nil => intro k h; cases h
  | cons b t ih =>
    intro k h a
    cases k with
    | zero => exact List.Perm.swap _ _ _
    | succ k =>
      have hk : k < t.length := by simpa using h
      have step := (ih k hk a).cons b
      exact ((List.Perm.swap _ _ _).trans step).trans (List.Perm.swap _ _ _)

theorem set_set_swap_perm {α : Type} (l : List α) :
    ∀ (i j : Nat) (hi : i < l.length) (hj : j < l.length),
      ((l.set i (l.get ⟨j, hj⟩)).set j (l.get ⟨i, hi⟩)).Perm l := by
  induction l with
  | nil => intro i j hi; cases hi
  | cons b t ih =>
    intro i j hi hj
    cases i with
    | zero =>
      cases j with
      | zero => simp
      | succ j =>
        have hj1 : j < t.length := by simpa using hj
        simpa using get_cons_set_perm t j hj1 b
    | succ i =>
      have hi1 : i < t.length := by simpa using hi
      cases j with
      | zero => simpa using get_cons_set_perm t i hi1 b
      | succ j =>
        have hj1 : j < t.length := by simpa using hj
        simpa using (ih i j hi1 hj1).cons b

theorem swap_perm (qs : List Question) (i j : Nat) (hi : i < qs.length) (hj : j < qs.length) :
    ∃ out, swap qs i j = some out ∧ out.Perm qs := by
  refine ⟨_, ?_, set_set_swap_perm qs i j hi hj⟩
  unfold swap
  rw [dif_pos ⟨hi, hj⟩]

theorem shuffleLoop_perm (draw : (i : Nat) → Fin (i + 1)) :
    ∀ (i : Nat) (qs : List Question), i ≤ qs.length - 1 →
      ∃ out, shuffleLoop draw i qs = some out ∧ out.Perm qs := by
  intro i
  induction i with
  | zero => intro qs _; exact ⟨qs, rfl, List.Perm.refl _⟩
  | succ i ih =>
    intro qs h
    have hj := (draw (i + 1)).isLt
    obtain ⟨mid, hmid, hperm⟩ := swap_perm qs (i + 1) (draw (i + 1)).val (by omega) (by omega)
    have hlen : mid.length = qs.length := hperm.length_eq
    obtain ⟨out, hout, hperm2⟩ := ih mid (by omega)
    refine ⟨out, ?_, hperm2.trans hperm⟩
    rw [shuffleLoop, hmid]
    exact hout

/-! ## Lemmas on the session loop -/

theorem sessionLoop_cons (caseTable : Char → Char) (questions : List Question)
    (timeLimit : Int) (outputScore : String) (retry : Bool) (r : Round) (rs : List Round)
    (w : World) (n : Nat) :
    sessionLoop caseTable questions timeLimit outputScore retry (r :: rs) w n =
      if (sessionStep caseTable questions timeLimit outputScore retry r w).2 = Step.again then
        sessionLoop caseTable questions timeLimit outputScore retry rs
          (sessionStep caseTable questions timeLimit outputScore retry r w).1 (n + 1)
      else
        ⟨(sessionStep caseTable questions timeLimit outputScore retry r w).1, n + 1,
          (sessionStep caseTable questions timeLimit outputScore retry r w).2⟩ := by
  rw [sessionLoop]
  cases h : (sessionStep caseTable questions timeLimit outputScore retry r w).2 <;> simp

/-- C1: for every question list, time limit and event sequence, the score held
by `askQuestions` at the end of the run is at least 0 and at most
`len(questions)`, and it is the score returned when the call returns, with no
error (completed) or with the error `Time out`. -/
theorem askQuestions_score_bounds (caseTable : Char → Char) (qs : List Question)
    (timeLimit : Int) (events : List Event) :
    0 ≤ (askQuestions caseTable qs timeLimit events).score ∧
    (askQuestions caseTable qs timeLimit events).score ≤ qs.length ∧
    ((askQuestions caseTable qs timeLimit events).returned =
        some ((askQuestions caseTable qs timeLimit events).score, none) ∨
      (askQuestions caseTable qs timeLimit events).returned =
        some ((askQuestions caseTable qs timeLimit events).score, some "Time out") ∨
      (askQuestions caseTable qs timeLimit events).returned = none) := by
  have h := askLoop_score_bounds caseTable qs events 0 []
  refine ⟨h.1, by simpa using h.2, ?_⟩
  unfold Attempt.returned
  cases (askQuestions caseTable qs timeLimit events).status <;> simp

/-- C2: when `len(questions)` typed lines arrive before anything else,
`askQuestions` returns no error and the number of positions at which the typed
line matches the expected answer; it has written every prompt and consumed
exactly those lines.  For the empty list it returns `(0, nil)` and consumes no
event. -/
theorem askQuestions_completed (caseTable : Char → Char) (qs : List Question)
    (timeLimit : Int) (typed : List String) (rest : List Event)
    (h : typed.length = qs.length) :
    (askQuestions caseTable qs timeLimit (typed.map Event.line ++ rest)).returned =
        some ((countCorrect caseTable qs typed : Int), none) ∧
    (askQuestions caseTable qs timeLimit (typed.map Event.line ++ rest)).rest = rest ∧
    (askQuestions caseTable qs timeLimit (typed.map Event.line ++ rest)).stdout =
        qs.map promptOf ∧
    (askQuestions caseTable [] timeLimit rest).returned = some (0, none) ∧
    (askQuestions caseTable [] timeLimit rest).rest = rest := by
  unfold askQuestions
  rw [askLoop_lines caseTable qs typed rest 0 [] (le_of_eq h), h]
  simp [askLoop, Attempt.returned]

/-- Instance of C2: three questions, three typed lines, two of them right. -/
theorem askQuestions_completed_witness :
    ["paris\n", "3\n", "JUPITER \n"].length = sampleQuestions.length ∧
    ((askQuestions id sampleQuestions 30
        (["paris\n", "3\n", "JUPITER \n"].map Event.line ++ [Event.deadline])).returned =
        some ((countCorrect id sampleQuestions ["paris\n", "3\n", "JUPITER \n"] : Int), none) ∧
    (askQuestions id sampleQuestions 30
        (["paris\n", "3\n", "JUPITER \n"].map Event.line ++ [Event.deadline])).rest =
        [Event.deadline] ∧
    (askQuestions id sampleQuestions 30
        (["paris\n", "3\n", "JUPITER \n"].map Event.line ++ [Event.deadline])).stdout =
        sampleQuestions.map promptOf ∧
    (askQuestions id [] 30 [Event.deadline]).returned = some (0, none) ∧
    (askQuestions id [] 30 [Event.deadline]).rest = [Event.deadline]) ∧
    countCorrect id sampleQuestions ["paris\n", "3\n", "JUPITER \n"] = 2 :=
  ⟨by decide,
    askQuestions_completed id sampleQuestions 30 ["paris\n", "3\n", "JUPITER \n"]
      [Event.deadline] (by decide),
    by decide⟩

/-- C3: when fewer typed lines than questions arrive and then the deadline
fires, `askQuestions` returns the error `Time out` with the score of the lines
that arrived, and the prompts written are exactly those of the questions up to
the one being awaited, in order. -/
theorem askQuestions_timeout (caseTable : Char → Char) (qs : List Question)
    (timeLimit : Int) (typed : List String) (rest : List Event)
    (h : typed.length < qs.length) :
    (askQuestions caseTable qs timeLimit
        (typed.map Event.line ++ Event.deadline :: rest)).returned =
        some ((countCorrect caseTable qs typed : Int), some "Time out") ∧
    (askQuestions caseTable qs timeLimit
        (typed.map Event.line ++ Event.deadline :: rest)).stdout =
        (qs.take (typed.length + 1)).map promptOf ∧
    (askQuestions caseTable qs timeLimit
        (typed.map Event.line ++ Event.deadline :: rest)).stdout.length = typed.length + 1 ∧
    (askQuestions caseTable qs timeLimit
        (typed.map Event.line ++ Event.deadline :: rest)).rest = rest := by
  unfold askQuestions
  rw [askLoop_lines caseTable qs typed _ 0 [] (le_of_lt h)]
  have hd : qs.drop typed.length =
      qs.get ⟨typed.length, h⟩ :: qs.drop (typed.length + 1) :=
    List.drop_eq_getElem_cons h
  have ht : qs.take (typed.length + 1) = qs.take typed.length ++ [qs.get ⟨typed.length, h⟩] := by
    rw [List.take_succ, List.getElem?_eq_getElem h]
    rfl
  have hl : (qs.take typed.length).length = typed.length := by
    rw [List.length_take]
    omega
  rw [hd, ht]
  simp only [askLoop, Attempt.returned, List.nil_append, List.map_append, List.map_cons,
    List.map_nil, List.length_append, List.length_map, hl, List.length_cons, List.length_nil,
    zero_add, and_self]

/-- Instance of C3: three questions, the deadline fires before the second answer; no prompt for the third question is written. -/
theorem askQuestions_timeout_witness :
    ["PARIS\n"].length < sampleQuestions.length ∧
    ((askQuestions id sampleQuestions 30
        (["PARIS\n"].map Event.line ++ Event.deadline :: [Event.line "2\n"])).returned =
        some ((countCorrect id sampleQuestions ["PARIS\n"] : Int), some "Time out") ∧
    (askQuestions id sampleQuestions 30
        (["PARIS\n"].map Event.line ++ Event.deadline :: [Event.line "2\n"])).stdout =
        (sampleQuestions.take (["PARIS\n"].length + 1)).map promptOf ∧
    (askQuestions id sampleQuestions 30
        (["PARIS\n"].map Event.line ++ Event.deadline :: [Event.line "2\n"])).stdout.length =
        ["PARIS\n"].length + 1 ∧
    (askQuestions id sampleQuestions 30
        (["PARIS\n"].map Event.line ++ Event.deadline :: [Event.line "2\n"])).rest =
        [Event.line "2\n"]) ∧
    (askQuestions id sampleQuestions 30
        [Event.line "PARIS\n", Event.deadline, Event.line "2\n"]).stdout =
        ["Capital of France?: ", "1+1: "] ∧
    countCorrect id sampleQuestions ["PARIS\n"] = 1 :=
  ⟨by decide,
    askQuestions_timeout id sampleQuestions 30 ["PARIS\n"] [Event.line "2\n"] (by decide),
    by decide, by decide⟩

/-- C4: provided lower-casing above ASCII does not change whether a rune is
white space, a typed line is counted correct exactly when the line trimmed and
then lower-cased equals the expected answer trimmed and then lower-cased; the
loop then adds exactly 1 to the score, and otherwise leaves it unchanged. -/
theorem answer_counted_iff (caseTable : Char → Char)
    (hTable : ∀ c : Char, 0x7F < c.toNat → isSpace (caseTable c) = isSpace c)
    (q : Question) (typed : String) (qs : List Question) (rest : List Event)
    (score : Int) (out : List String) :
    (isCorrect caseTable typed q.answer = true ↔
      ToLower caseTable (TrimSpace typed) = ToLower caseTable (TrimSpace q.answer)) ∧
    askLoop caseTable (q :: qs) (Event.line typed :: rest) score out =
      askLoop caseTable qs rest
        (if ToLower caseTable (TrimSpace typed) = ToLower caseTable (TrimSpace q.answer)
          then score + 1 else score)
        (out ++ [promptOf q]) ∧
    (askQuestions caseTable [q] 0 [Event.line typed]).score =
      (if ToLower caseTable (TrimSpace typed) = ToLower caseTable (TrimSpace q.answer)
        then 1 else 0) := by
  have hiff := isCorrect_iff caseTable hTable typed q.answer
  refine ⟨hiff, ?_, ?_⟩
  · rw [askLoop]
    by_cases hc : isCorrect caseTable typed q.answer = true
    · simp [hc, hiff.mp hc]
    · have hne : ¬ ToLower caseTable (TrimSpace typed) = ToLower caseTable (TrimSpace q.answer) :=
        fun h => hc (hiff.mpr h)
      simp [hc, hne]
  · unfold askQuestions
    rw [askLoop, askLoop]
    by_cases hc : isCorrect caseTable typed q.answer = true
    · simp [hc, hiff.mp hc]
    · have hne : ¬ ToLower caseTable (TrimSpace typed) = ToLower caseTable (TrimSpace q.answer) :=
        fun h => hc (hiff.mpr h)
      simp [hc, hne]

/-- Instance of C4: expected `Paris`, typed ` paris ` with a newline, counted correct. -/
theorem answer_counted_iff_witness :
    (∀ c : Char, 0x7F < c.toNat → isSpace (id c) = isSpace c) ∧
    ((isCorrect id " paris \n" (Question.mk "Capital of France?" "Paris").answer = true ↔
      ToLower id (TrimSpace " paris \n") =
        ToLower id (TrimSpace (Question.mk "Capital of France?" "Paris").answer)) ∧
    askLoop id (Question.mk "Capital of France?" "Paris" :: []) (Event.line " paris \n" :: []) 0 [] =
      askLoop id [] []
        (if ToLower id (TrimSpace " paris \n") =
            ToLower id (TrimSpace (Question.mk "Capital of France?" "Paris").answer)
          then 0 + 1 else 0)
        ([] ++ [promptOf (Question.mk "Capital of France?" "Paris")]) ∧
    (askQuestions id [Question.mk "Capital of France?" "Paris"] 0 [Event.line " paris \n"]).score =
      (if ToLower id (TrimSpace " paris \n") =
          ToLower id (TrimSpace (Question.mk "Capital of France?" "Paris").answer)
        then 1 else 0)) ∧
    isCorrect id " paris \n" "Paris" = true ∧
    (askQuestions id [Question.mk "Capital of France?" "Paris"] 0 [Event.line " paris \n"]).score = 1 :=
  ⟨fun _ _ => rfl,
    answer_counted_iff id (fun _ _ => rfl) (Question.mk "Capital of France?" "Paris")
      " paris \n" [] [] 0 [],
    by decide, by decide⟩

/-- C5, as stated, fails: two questions, the first answered correctly, then the
deadline fires, with the output destination `scores.txt` configured.  The
attempt times out with score 1; `main` prints the two prompts and `Time out`,
no score line, and `scores.txt` is not created. -/
theorem timeout_score_not_reported :
    (askQuestions id [⟨"q1", "a"⟩, ⟨"q2", "b"⟩] 30
        [Event.line "a\n", Event.deadline]).returned = some (1, some "Time out") ∧
    (sessionLoop id [⟨"q1", "a"⟩, ⟨"q2", "b"⟩] 30 "scores.txt" false
        [⟨[Event.line "a\n", Event.deadline], none⟩] emptyWorld 0).world.stdout =
      ["q1: ", "q2: ", "Time out\n"] ∧
    scoreLine 1 2 ∉
      (sessionLoop id [⟨"q1", "a"⟩, ⟨"q2", "b"⟩] 30 "scores.txt" false
        [⟨[Event.line "a\n", Event.deadline], none⟩] emptyWorld 0).world.stdout ∧
    (sessionLoop id [⟨"q1", "a"⟩, ⟨"q2", "b"⟩] 30 "scores.txt" false
        [⟨[Event.line "a\n", Event.deadline], none⟩] emptyWorld 0).world.files "scores.txt" =
      none := by
  decide

/-- C5, amended: when the attempt ends by time-out, the iteration of `main`
writes the prompts of the attempt and then the line `Time out`, leaves every
file as it was, and `main` returns after that one attempt, whatever the output
destination and the retry flag are. -/
theorem timeout_ends_session (caseTable : Char → Char) (questions : List Question)
    (timeLimit : Int) (outputScore : String) (retry : Bool) (r : Round) (rs : List Round)
    (w : World) (n : Nat)
    (h : (askQuestions caseTable questions timeLimit r.events).status = Status.timedOut) :
    (sessionLoop caseTable questions timeLimit outputScore retry (r :: rs) w n).world.stdout =
      w.stdout ++ (askQuestions caseTable questions timeLimit r.events).stdout ++ ["Time out\n"] ∧
    (sessionLoop caseTable questions timeLimit outputScore retry (r :: rs) w n).world.files =
      w.files ∧
    (sessionLoop caseTable questions timeLimit outputScore retry (r :: rs) w n).attempts = n + 1 ∧
    (sessionLoop caseTable questions timeLimit outputScore retry (r :: rs) w n).ending =
      Step.returned := by
  have hs : sessionStep caseTable questions timeLimit outputScore retry r w =
      (⟨w.stdout ++ (askQuestions caseTable questions timeLimit r.events).stdout ++ ["Time out\n"],
        w.files⟩, Step.returned) := by
    unfold sessionStep
    simp only [h]
  rw [sessionLoop_cons, hs]
  simp

/-- Instance of the amended C5: a time-out with a destination configured and retry enabled. -/
theorem timeout_ends_session_witness :
    (askQuestions id sampleQuestions 30 (Round.mk [Event.line "paris\n", Event.deadline]
        (some "yes\n")).events).status = Status.timedOut ∧
    ((sessionLoop id sampleQuestions 30 "scores.txt" true
        (Round.mk [Event.line "paris\n", Event.deadline] (some "yes\n") :: []) emptyWorld
        0).world.stdout =
      emptyWorld.stdout ++ (askQuestions id sampleQuestions 30
        (Round.mk [Event.line "paris\n", Event.deadline] (some "yes\n")).events).stdout ++
        ["Time out\n"] ∧
    (sessionLoop id sampleQuestions 30 "scores.txt" true
        (Round.mk [Event.line "paris\n", Event.deadline] (some "yes\n") :: []) emptyWorld
        0).world.files = emptyWorld.files ∧
    (sessionLoop id sampleQuestions 30 "scores.txt" true
        (Round.mk [Event.line "paris\n", Event.deadline] (some "yes\n") :: []) emptyWorld
        0).attempts = 0 + 1 ∧
    (sessionLoop id sampleQuestions 30 "scores.txt" true
        (Round.mk [Event.line "paris\n", Event.deadline] (some "yes\n") :: []) emptyWorld
        0).ending = Step.returned) :=
  ⟨by decide,
    timeout_ends_session id sampleQuestions 30 "scores.txt" true
      (Round.mk [Event.line "paris\n", Event.deadline] (some "yes\n")) [] emptyWorld 0
      (by decide)⟩

/-- C6: when every decoded record has exactly two fields, `readCSV` returns no
error and one question per record, in order, with field 0 as the prompt and
field 1 as the expected answer. -/
theorem readCSV_two_fields (records : List (List String))
    (h : ∀ r ∈ records, r.length = 2) :
    readCSV (Except.ok records) =
      (records.map (fun r => Question.mk (r.getD 0 "") (r.getD 1 "")), none) ∧
    (readCSV (Except.ok records)).1.length = records.length := by
  have hl := readCSVLoop_two_fields records [] h
  simp only [List.nil_append] at hl
  unfold readCSV
  simp only [hl, List.length_map, and_self]

/-- Instance of C6: two records of two fields. -/
theorem readCSV_two_fields_witness :
    (∀ r ∈ [["1+1", "2"], ["Capital of France?", "Paris"]], r.length = 2) ∧
    (readCSV (Except.ok [["1+1", "2"], ["Capital of France?", "Paris"]]) =
      ([["1+1", "2"], ["Capital of France?", "Paris"]].map
        (fun r => Question.mk (r.getD 0 "") (r.getD 1 "")), none) ∧
    (readCSV (Except.ok [["1+1", "2"], ["Capital of France?", "Paris"]])).1.length =
      [["1+1", "2"], ["Capital of France?", "Paris"]].length) ∧
    readCSV (Except.ok [["1+1", "2"], ["Capital of France?", "Paris"]]) =
      ([⟨"1+1", "2"⟩, ⟨"Capital of France?", "Paris"⟩], none) :=
  ⟨by decide,
    readCSV_two_fields [["1+1", "2"], ["Capital of France?", "Paris"]] (by decide),
    by decide⟩

/-- C7, as stated, fails: a file whose second record has three fields, between
two records of two fields.  The csv reader stops at the second record, so
`readCSV` returns the `nil` slice with the error of the reader,
`record on line 2: wrong number of fields`, not `Invalid format in CSV`. -/
theorem bad_record_among_valid :
    (∃ r ∈ mixedInput, r.fields.length ≠ 2) ∧
    csvReadAll mixedInput none = Except.error "record on line 2: wrong number of fields" ∧
    readCSV (csvReadAll mixedInput none) =
      ([], some "record on line 2: wrong number of fields") ∧
    readCSV (csvReadAll mixedInput none) ≠ ([], some "Invalid format in CSV") :=
  ⟨by decide, rfl, by decide, by decide⟩

/-- C7, amended: when some record of the file, at any position, does not have
exactly two fields, `readCSV` fails and returns the `nil` slice, never the
questions of the records before it.  The error is `Invalid format in CSV` when
all records have the same number of fields and the reader meets no error; when
a record differs in its number of fields from the first record, the error is
the field-count error of the reader for the first such record. -/
theorem readCSV_rejects_bad_record (input : List Record) (failure : Option String)
    (h : ∃ r ∈ input, r.fields.length ≠ 2) :
    (readCSV (csvReadAll input failure)).1 = [] ∧
    (∃ err, (readCSV (csvReadAll input failure)).2 = some err) ∧
    (∀ k, (∀ r ∈ input, r.fields.length = k) → failure = none →
      readCSV (csvReadAll input failure) = ([], some "Invalid format in CSV")) ∧
    (∀ first pre r post, input = first :: (pre ++ r :: post) →
      0 < first.fields.length →
      (∀ x ∈ pre, x.fields.length = first.fields.length) →
      r.fields.length ≠ first.fields.length →
      readCSV (csvReadAll input failure) = ([], some (fieldCountError r.line))) := by
  obtain ⟨err, herr⟩ := readCSV_fails input failure h
  refine ⟨by rw [herr], ⟨err, by rw [herr]⟩, ?_, ?_⟩
  · intro k hk hnone
    subst hnone
    have hu := csvReadLoop_uniform none k input 0 [] (Or.inl rfl) hk
    simp only [List.nil_append] at hu
    unfold csvReadAll readCSV
    rw [hu]
    apply readCSVLoop_bad_record
    obtain ⟨r, hr, hr2⟩ := h
    exact ⟨r.fields, List.mem_map_of_mem _ hr, hr2⟩
  · intro first pre r post hin hpos hpre hr
    subst hin
    unfold csvReadAll
    rw [csvReadLoop, if_neg (by omega),
      csvReadLoop_mismatch failure first.fields.length hpos pre r post _ hpre hr]
    rfl

/-- Instance of the amended C7: two records of three fields each. -/
theorem readCSV_rejects_bad_record_witness :
    (∃ r ∈ threeColumnInput, r.fields.length ≠ 2) ∧
    ((readCSV (csvReadAll threeColumnInput none)).1 = [] ∧
    (∃ err, (readCSV (csvReadAll threeColumnInput none)).2 = some err) ∧
    (∀ k, (∀ r ∈ threeColumnInput, r.fields.length = k) → (none : Option String) = none →
      readCSV (csvReadAll threeColumnInput none) = ([], some "Invalid format in CSV")) ∧
    (∀ first pre r post, threeColumnInput = first :: (pre ++ r :: post) →
      0 < first.fields.length →
      (∀ x ∈ pre, x.fields.length = first.fields.length) →
      r.fields.length ≠ first.fields.length →
      readCSV (csvReadAll threeColumnInput none) = ([], some (fieldCountError r.line)))) ∧
    readCSV (csvReadAll threeColumnInput none) = ([], some "Invalid format in CSV") ∧
    readCSV (csvReadAll [⟨1, ["a", "b"]⟩, ⟨2, ["c"]⟩] none) =
      ([], some (fieldCountError 2)) :=
  ⟨⟨⟨1, ["a", "b", "c"]⟩, by decide, by decide⟩,
    readCSV_rejects_bad_record threeColumnInput none
      ⟨⟨1, ["a", "b", "c"]⟩, by decide, by decide⟩,
    by decide, by decide⟩

/-- C8: for every question list and every outcome of the random source, the
shuffle step of `main` with the flag set succeeds and yields a permutation of
the list: same multiset, same length, and the same order when the list has at
most one element; with the flag unset the list is left as loaded. -/
theorem shuffleStep_permutation (draw : (i : Nat) → Fin (i + 1)) (qs : List Question) :
    (∃ out, shuffleStep true draw qs = some out ∧ out.Perm qs ∧
      (out : Multiset Question) = (qs : Multiset Question) ∧
      out.length = qs.length ∧ (qs.length ≤ 1 → out = qs)) ∧
    shuffleStep false draw qs = some qs := by
  refine ⟨?_, rfl⟩
  obtain ⟨out, hout, hperm⟩ := shuffleLoop_perm draw (qs.length - 1) qs (le_refl _)
  refine ⟨out, ?_, hperm, Multiset.coe_eq_coe.mpr hperm, hperm.length_eq, ?_⟩
  · simpa [shuffleStep, Shuffle] using hout
  · intro hle
    have h0 : qs.length - 1 = 0 := by omega
    rw [h0, shuffleLoop] at hout
    exact (Option.some.inj hout).symm

/-- C9: when the destination holds a file with content `c`, `saveScore`
succeeds and leaves it holding `c` followed by the line `Score: <score>/<total>`
and a newline, every other path being unchanged; a second save leaves both
lines after `c`, in the order written. -/
theorem saveScore_appends (fs : FileSystem) (filename c : String)
    (score total score2 total2 : Int) (h : fs filename = some (Node.file c)) :
    ∃ fs1 fs2, saveScore fs filename score total = some fs1 ∧
      fs1 filename =
        some (Node.file (c ++ ("Score: " ++ toString score ++ "/" ++ toString total ++ "\n"))) ∧
      (∀ p, p ≠ filename → fs1 p = fs p) ∧
      saveScore fs1 filename score2 total2 = some fs2 ∧
      fs2 filename =
        some (Node.file (c ++ ("Score: " ++ toString score ++ "/" ++ toString total ++ "\n") ++
          ("Score: " ++ toString score2 ++ "/" ++ toString total2 ++ "\n"))) ∧
      (∀ p, p ≠ filename → fs2 p = fs p) := by
  have h1 : saveScore fs filename score total =
      some (fs.put filename (Node.file (c ++ scoreRecord score total))) := by
    simp [saveScore, h]
  have hget : (fs.put filename (Node.file (c ++ scoreRecord score total))) filename =
      some (Node.file (c ++ scoreRecord score total)) := by
    simp [FileSystem.put]
  have h2 : saveScore (fs.put filename (Node.file (c ++ scoreRecord score total))) filename
      score2 total2 =
      some ((fs.put filename (Node.file (c ++ scoreRecord score total))).put filename
        (Node.file (c ++ scoreRecord score total ++ scoreRecord score2 total2))) := by
    simp [saveScore, hget]
  refine ⟨_, _, h1, hget, ?_, h2, ?_, ?_⟩
  · intro p hp
    simp [FileSystem.put, hp]
  · simp [FileSystem.put, scoreRecord]
  · intro p hp
    simp [FileSystem.put, hp]

/-- Instance of C9: two saves after one earlier line. -/
theorem saveScore_appends_witness :
    sampleFiles "scores.txt" = some (Node.file "Score: 1/2\n") ∧
    (∃ fs1 fs2, saveScore sampleFiles "scores.txt" 3 5 = some fs1 ∧
      fs1 "scores.txt" =
        some (Node.file ("Score: 1/2\n" ++
          ("Score: " ++ toString (3 : Int) ++ "/" ++ toString (5 : Int) ++ "\n"))) ∧
      (∀ p, p ≠ "scores.txt" → fs1 p = sampleFiles p) ∧
      saveScore fs1 "scores.txt" 0 5 = some fs2 ∧
      fs2 "scores.txt" =
        some (Node.file ("Score: 1/2\n" ++
          ("Score: " ++ toString (3 : Int) ++ "/" ++ toString (5 : Int) ++ "\n") ++
          ("Score: " ++ toString (0 : Int) ++ "/" ++ toString (5 : Int) ++ "\n"))) ∧
      (∀ p, p ≠ "scores.txt" → fs2 p = sampleFiles p)) ∧
    ("Score: 1/2\n" ++ ("Score: " ++ toString (3 : Int) ++ "/" ++ toString (5 : Int) ++ "\n") ++
        ("Score: " ++ toString (0 : Int) ++ "/" ++ toString (5 : Int) ++ "\n")) =
      "Score: 1/2\nScore: 3/5\nScore: 0/5\n" :=
  ⟨by decide, saveScore_appends sampleFiles "scores.txt" "Score: 1/2\n" 3 5 0 5 (by decide),
    by decide⟩

end Quiz
